import Mathlib

/-!
Shallow embedding of `src/asp/Tools/image_mosaic.cc` (ASP `image_mosaic` tool).

Machine `double` arithmetic is modelled by `ℚ`, machine integers by `ℤ`/`ℕ`
(image sizes, pixel indices and loop counters are non-negative in the source).
External VisionWorkbench collaborators (disk I/O, feature matching, RANSAC's
internal search, `compute_line_weights`, bilinear resampling) are parameters
(oracles) of the embedded functions; everything the tool itself computes is
embedded from the source.
-/

namespace ImageMosaic

/-! ### Affine transforms (vw::AffineTransform / homogeneous 3x3 Matrix<double>)

An affine transform is a 2x2 matrix `[[a,b],[c,d]]` plus a translation
`(tx,ty)`; as a homogeneous 3x3 matrix its last row is `(0,0,1)`, which is the
shape of the matrices produced by `vw::math::AffineFittingFunctor` and chained
in `compute_all_image_positions` (line 362: `last_transform * relative_transform`). -/

structure Affine where
  a : ℚ
  b : ℚ
  c : ℚ
  d : ℚ
  tx : ℚ
  ty : ℚ
deriving DecidableEq

/-- The identity transform: lines 337-343 (`mo` = identity 2x2, `to` = (0,0)),
also `identity_matrix(3)` initialising `last_transform` (line 349). -/
def Affine.id : Affine := ⟨1, 0, 0, 1, 0, 0⟩

/-- Homogeneous 3x3 matrix product restricted to affine matrices
(`absolute_transform = last_transform * relative_transform`, line 362). -/
def Affine.comp (f g : Affine) : Affine :=
  ⟨f.a * g.a + f.b * g.c, f.a * g.b + f.b * g.d,
   f.c * g.a + f.d * g.c, f.c * g.b + f.d * g.d,
   f.a * g.tx + f.b * g.ty + f.tx,
   f.c * g.tx + f.d * g.ty + f.ty⟩

/-- `AffineTransform::forward(p) = M*p + t` (used at line 390). -/
def Affine.fwd (f : Affine) (p : ℚ × ℚ) : ℚ × ℚ :=
  (f.a * p.1 + f.b * p.2 + f.tx, f.c * p.1 + f.d * p.2 + f.ty)

/-- Cast an integer point (a `Vector2i`, e.g. an image size) to `ℚ × ℚ`. -/
def qp (p : ℤ × ℤ) : ℚ × ℚ := ((p.1 : ℚ), (p.2 : ℚ))

/-- `std::min` on doubles: `min(a,b)` is `b` when `b < a`, else `a`. -/
def qmin (x y : ℚ) : ℚ := if y < x then y else x

/-- `std::max` on doubles. -/
def qmax (x y : ℚ) : ℚ := if x < y then y else x

/-! ### Integer bounding boxes (vw::BBox2i)

A `BBox2i` is a min and a max corner of `int32` coordinates.  The default
constructor produces the "empty" box with `min` at the highest and `max` at
the lowest representable value; `grow` with a point lowers `min` and raises
`max` coordinatewise; growing with a floating-point point (line 391 grows the
integer `output_bbox` by the `Vector2` corner) compares in `double` and then
assigns with C++'s float-to-int truncation toward zero. -/

structure BBoxI where
  minx : ℤ
  miny : ℤ
  maxx : ℤ
  maxy : ℤ
deriving DecidableEq

/-- `int32` extremes used by the `BBox2i` default constructor. -/
def int32max : ℤ := 2147483647

def int32min : ℤ := -2147483648

/-- Default-constructed (empty) `BBox2i`. -/
def BBoxI.dflt : BBoxI := ⟨int32max, int32max, int32min, int32min⟩

/-- `BBox::empty()`: some dimension has `max ≤ min`. -/
def BBoxI.empt (bx : BBoxI) : Prop := bx.maxx ≤ bx.minx ∨ bx.maxy ≤ bx.miny

instance (bx : BBoxI) : Decidable bx.empt := by
  unfold BBoxI.empt; infer_instance

/-- `BBox2i::grow` with an integer point. -/
def BBoxI.growI (bx : BBoxI) (p : ℤ × ℤ) : BBoxI :=
  ⟨if p.1 < bx.minx then p.1 else bx.minx,
   if p.2 < bx.miny then p.2 else bx.miny,
   if bx.maxx < p.1 then p.1 else bx.maxx,
   if bx.maxy < p.2 then p.2 else bx.maxy⟩

/-- C++ float-to-int conversion: truncation toward zero. -/
def qtrunc (q : ℚ) : ℤ := if 0 ≤ q then ⌊q⌋ else ⌈q⌉

/-- `BBox2i::grow` with a floating-point point (line 391): the comparison is
performed in `double`, the assignment truncates toward zero. -/
def BBoxI.growQ (bx : BBoxI) (p : ℚ × ℚ) : BBoxI :=
  ⟨if p.1 < (bx.minx : ℚ) then qtrunc p.1 else bx.minx,
   if p.2 < (bx.miny : ℚ) then qtrunc p.2 else bx.miny,
   if (bx.maxx : ℚ) < p.1 then qtrunc p.1 else bx.maxx,
   if (bx.maxy : ℚ) < p.2 then qtrunc p.2 else bx.maxy⟩

/-- Box containment, coordinatewise (`bx` lies inside `cx`). -/
def BBoxI.sub (bx cx : BBoxI) : Prop :=
  cx.minx ≤ bx.minx ∧ cx.miny ≤ bx.miny ∧ bx.maxx ≤ cx.maxx ∧ bx.maxy ≤ cx.maxy

/-! ### Rational bounding boxes (for the spec-side "union of canvas boxes") -/

structure QBox where
  minx : ℚ
  miny : ℚ
  maxx : ℚ
  maxy : ℚ
deriving DecidableEq

/-- Grow a rational box by a rational point. -/
def QBox.growp (bx : QBox) (p : ℚ × ℚ) : QBox :=
  ⟨qmin bx.minx p.1, qmin bx.miny p.2, qmax bx.maxx p.1, qmax bx.maxy p.2⟩

/-- Bounding-box union (hull) of two rational boxes. -/
def QBox.unionB (bx cx : QBox) : QBox :=
  (bx.growp (cx.minx, cx.miny)).growp (cx.maxx, cx.maxy)

/-- View an integer box as a rational box. -/
def BBoxI.toQ (bx : BBoxI) : QBox := ⟨bx.minx, bx.miny, bx.maxx, bx.maxy⟩

/-! ### Layout chain (`compute_all_image_positions`, lines 319-415)

The fitted relative transform for each consecutive pair is an input here
(`rels i` is the transform fitted between images `i` and `i+1`); the chain
arithmetic below is exactly what the loop at lines 351-412 does with those
fits.  `sizes i` is `file_image_size(opt.image_files[i])`. -/

/-- `last_transform` / `absolute_transform` chaining (lines 349-364):
the transform of image 0 is the identity, and each later image composes the
previous absolute transform with the freshly fitted relative transform. -/
def absolute_transform (rels : ℕ → Affine) : ℕ → Affine
  | 0 => Affine.id
  | i + 1 => (absolute_transform rels i).comp (rels i)

/-- The running `output_bbox` after images `0..n` have been processed:
seeded with image 0's extent (lines 330-333), then grown with each later
image's forward-mapped bottom-right corner only (lines 390-391 — the other
corners are not added; see the `TODO` there). -/
def output_bbox (sizes : ℕ → ℤ × ℤ) (rels : ℕ → Affine) : ℕ → BBoxI
  | 0 => (BBoxI.dflt.growI (0, 0)).growI (sizes 0)
  | n + 1 =>
    (output_bbox sizes rels n).growQ
      ((absolute_transform rels (n + 1)).fwd (qp (sizes (n + 1))))

/-- The full canvas-space footprint of image `i`: its native extent
`[0,w]×[0,h]` mapped through its absolute transform (hull of the four
transformed corners; `compute_transformed_bbox_fast` at line 398, and the
notion the spec's "canvas bounding box of each image" refers to). -/
def canvas_box_full (sizes : ℕ → ℤ × ℤ) (rels : ℕ → Affine) (i : ℕ) : QBox :=
  let t := absolute_transform rels i
  let w : ℚ := ((sizes i).1 : ℚ)
  let h : ℚ := ((sizes i).2 : ℚ)
  ((((QBox.mk (t.fwd (0, 0)).1 (t.fwd (0, 0)).2 (t.fwd (0, 0)).1 (t.fwd (0, 0)).2).growp
      (t.fwd (w, 0))).growp (t.fwd (0, h))).growp (t.fwd (w, h)))

/-- Modelled from the claim under check (spec §3 "Overall canvas box"): the
union of every image's canvas bounding box, where each image's canvas
bounding box is its full extent mapped through its absolute transform.  This
is the spec-side definition to be compared against `output_bbox`. -/
def spec_union_box (sizes : ℕ → ℤ × ℤ) (rels : ℕ → Affine) : ℕ → QBox
  | 0 => canvas_box_full sizes rels 0
  | n + 1 => (spec_union_box sizes rels n).unionB (canvas_box_full sizes rels (n + 1))

/-! Concrete inputs used by counterexamples and witnesses for the layout. -/

/-- Two 10x10 images. -/
def szC : ℕ → ℤ × ℤ := fun _ => (10, 10)

/-- Every fitted pairwise transform is the translation by `(-50, 0)`.
A leftward translation is affine and invertible, so it is a possible RANSAC
output; it is not a pure rightward translation. -/
def relsC : ℕ → Affine := fun _ => ⟨1, 0, 0, 1, -50, 0⟩

/-! ### Weight Field Builder (`centerline_weights3`, lines 57-151)

The valid/invalid mask of the input is `valid : ℕ → ℕ → Bool` over the grid
`[0,numCols) × [0,numRows)` (`is_valid(img(col,row))` in the source).  The
call in the renderer (line 516) passes no ROI, so `output_bbox` there is the
full image and the output grid indexing is the identity; the embedding below
is the value written at `(col,row)` by the loop at lines 128-149.

`compute_line_weights` is an external VisionWorkbench function; it is the
parameter `lw`, applied to the same data the source passes it: the direction
flag, the centerline array, the max-distance array, and the pixel. -/

/-- The type of the external `compute_line_weights` collaborator:
direction flag, centerline array, max-distance array, pixel column, pixel row. -/
def LW : Type := Bool → (ℕ → ℚ) → (ℕ → ℚ) → ℕ → ℕ → ℚ

/-- First valid column in a row (lines 76-79 and 93): initialised to
`numCols`, lowered to each valid pixel's column. -/
def minValInRow (valid : ℕ → ℕ → Bool) (numCols row : ℕ) : ℕ :=
  (List.range numCols).foldl (fun acc col => if valid col row then min acc col else acc) numCols

/-- Last valid column in a row (lines 76-79 and 94): initialised to 0,
raised to each valid pixel's column. -/
def maxValInRow (valid : ℕ → ℕ → Bool) (numCols row : ℕ) : ℕ :=
  (List.range numCols).foldl (fun acc col => if valid col row then max acc col else acc) 0

/-- First valid row in a column (lines 80-83 and 97). -/
def minValInCol (valid : ℕ → ℕ → Bool) (numRows col : ℕ) : ℕ :=
  (List.range numRows).foldl (fun acc row => if valid col row then min acc row else acc) numRows

/-- Last valid row in a column (lines 80-83 and 98). -/
def maxValInCol (valid : ℕ → ℕ → Bool) (numRows col : ℕ) : ℕ :=
  (List.range numRows).foldl (fun acc row => if valid col row then max acc row else acc) 0

/-- `hCenterLine[row] = (minValInRow[row] + maxValInRow[row]) / 2.0` (line 104). -/
def hCenterLine (valid : ℕ → ℕ → Bool) (numCols : ℕ) (row : ℕ) : ℚ :=
  ((minValInRow valid numCols row + maxValInRow valid numCols row : ℕ) : ℚ) / 2

/-- `hMaxDistArray[row] = max - min`, floored at 0 (lines 105-108). -/
def hMaxDistArray (valid : ℕ → ℕ → Bool) (numCols : ℕ) (row : ℕ) : ℚ :=
  if ((maxValInRow valid numCols row : ℚ) - (minValInRow valid numCols row : ℚ)) < 0
  then 0 else (maxValInRow valid numCols row : ℚ) - (minValInRow valid numCols row : ℚ)

/-- `vCenterLine[col]` (line 113). -/
def vCenterLine (valid : ℕ → ℕ → Bool) (numRows : ℕ) (col : ℕ) : ℚ :=
  ((minValInCol valid numRows col + maxValInCol valid numRows col : ℕ) : ℚ) / 2

/-- `vMaxDistArray[col]`, floored at 0 (lines 114-117). -/
def vMaxDistArray (valid : ℕ → ℕ → Bool) (numRows : ℕ) (col : ℕ) : ℚ :=
  if ((maxValInCol valid numRows col : ℚ) - (minValInCol valid numRows col : ℚ)) < 0
  then 0 else (maxValInCol valid numRows col : ℚ) - (minValInCol valid numRows col : ℚ)

/-- The weight written at `(col,row)` by `centerline_weights3` (lines 128-149):
a valid pixel gets the minimum of the two directional confidences; an invalid
pixel gets the hole-fill value when it lies inside both its column's valid row
span (`inner_row`, line 130) and its row's valid column span (`inner_col`,
line 131), and the border value otherwise. -/
def centerline_weights3 (lw : LW) (valid : ℕ → ℕ → Bool) (numCols numRows : ℕ)
    (hole_fill_value border_fill_value : ℚ) (col row : ℕ) : ℚ :=
  if valid col row then
    qmin (lw true (hCenterLine valid numCols) (hMaxDistArray valid numCols) col row)
         (lw false (vCenterLine valid numRows) (vMaxDistArray valid numRows) col row)
  else
    if (minValInCol valid numRows col ≤ row ∧ row ≤ maxValInCol valid numRows col) ∧
       (minValInRow valid numCols row ≤ col ∧ col ≤ maxValInRow valid numCols row)
    then hole_fill_value
    else border_fill_value

/-! ### Tiled Mosaic Renderer (`ImageMosaicView::prerasterize`, lines 457-580)

A `Contribution` is the data the per-tile loop body has for one intersecting
input image `i`:

* `offC`, `offR`  — `tile_bbox.min()` (line 491), the position of the
  intersection rectangle inside the requested tile;
* `width`, `height` — the intersection rectangle's dimensions;
* `pixel cc rr`   — `trans_input(cc, rr)` (line 510), the transformed, cropped
  input image over `expanded_intersect` (the intersection padded by
  `blend_radius` on each side): `some v` for a valid `PixelMask` pixel of
  value `v`, `none` for an invalid (masked) one.  The resampling (VW
  `transform` + bilinear interpolation) is external, so this grid is an input.

Everything after line 510 — `centerline_weights3` on the transformed crop,
the per-pair ceiling, the clamping, the accumulation and the normalization —
is embedded below. -/

structure Contribution where
  offC : ℕ
  offR : ℕ
  width : ℕ
  height : ℕ
  pixel : ℕ → ℕ → Option ℚ

/-- Validity mask of `trans_input` (what `is_valid` sees at lines 90/135). -/
def trans_input_valid (ct : Contribution) : ℕ → ℕ → Bool :=
  fun cc rr => (ct.pixel cc rr).isSome

/-- `input_weights` (line 516): `centerline_weights3(trans_input, input_weights)`
with the default fill values `0` and `-1`, over the expanded grid of size
`(width + 2*blend_radius) × (height + 2*blend_radius)`. -/
def input_weights (lw : LW) (blend_radius : ℕ) (ct : Contribution) (cc rr : ℕ) : ℚ :=
  centerline_weights3 lw (trans_input_valid ct)
    (ct.width + 2 * blend_radius) (ct.height + 2 * blend_radius) 0 (-1) cc rr

/-- The per-pair ceiling (lines 518-521):
`cutoff = blend_radius / (min(intersect.height(), intersect.width())/2.0 + blend_radius)`. -/
def cutoff (blend_radius : ℕ) (ct : Contribution) : ℚ :=
  (blend_radius : ℚ) / (((min ct.height ct.width : ℕ) : ℚ) / 2 + (blend_radius : ℚ))

/-- The clamping loop (lines 525-530): any weight above the cutoff is replaced
by the cutoff. -/
def clamp_weight (cut w : ℚ) : ℚ := if cut < w then cut else w

/-- The weight actually read by the accumulation loop at line 542 (after the
clamping loop has run over the whole grid). -/
def used_weight (lw : LW) (blend_radius : ℕ) (ct : Contribution) (cc rr : ℕ) : ℚ :=
  clamp_weight (cutoff blend_radius ct) (input_weights lw blend_radius ct cc rr)

/-- Pointwise update of a grid function. -/
def updf (f : ℕ → ℕ → ℚ) (c r : ℕ) (v : ℚ) : ℕ → ℕ → ℚ :=
  fun x y => if x = c ∧ y = r then v else f x y

/-- One iteration of the inner copy loop (lines 540-556) at column `cc` of row
`rr` of the intersection: if the resampled pixel is valid, accumulate
`value * weight` into the tile (first contributor sets, line 552; later
contributors add, line 554) and `weight` into the weight tile (line 555). -/
def paste_pixel (lw : LW) (blend_radius : ℕ) (ct : Contribution) (rr : ℕ)
    (tw : (ℕ → ℕ → ℚ) × (ℕ → ℕ → ℚ)) (cc : ℕ) : (ℕ → ℕ → ℚ) × (ℕ → ℕ → ℚ) :=
  match ct.pixel (cc + blend_radius) (rr + blend_radius) with
  | none => tw
  | some value =>
    let w := used_weight lw blend_radius ct (cc + blend_radius) (rr + blend_radius)
    let oc := cc + ct.offC
    let orr := rr + ct.offR
    let tnew := if tw.2 oc orr = 0 then value * w else tw.1 oc orr + value * w
    (updf tw.1 oc orr tnew, updf tw.2 oc orr (tw.2 oc orr + w))

/-- One iteration of the outer copy loop (line 539): paste one intersection row. -/
def paste_row (lw : LW) (blend_radius : ℕ) (ct : Contribution)
    (tw : (ℕ → ℕ → ℚ) × (ℕ → ℕ → ℚ)) (rr : ℕ) : (ℕ → ℕ → ℚ) × (ℕ → ℕ → ℚ) :=
  (List.range ct.width).foldl (paste_pixel lw blend_radius ct rr) tw

/-- The whole per-image body of the loop at lines 467-561 (weights computed,
clamped, and the intersection pasted into the tile/weight accumulators). -/
def apply_contribution (lw : LW) (blend_radius : ℕ) (ct : Contribution)
    (tw : (ℕ → ℕ → ℚ) × (ℕ → ℕ → ℚ)) : (ℕ → ℕ → ℚ) × (ℕ → ℕ → ℚ) :=
  (List.range ct.height).foldl (paste_row lw blend_radius ct) tw

/-- The accumulator pair (tile, weights) after all intersecting images are
processed: the tile starts filled with the output nodata sentinel and the
weight tile with zero (lines 460-463). -/
def accum_state (lw : LW) (blend_radius : ℕ) (output_nodata_value : ℚ)
    (contribs : List Contribution) : (ℕ → ℕ → ℚ) × (ℕ → ℕ → ℚ) :=
  contribs.foldl (fun tw ct => apply_contribution lw blend_radius ct tw)
    (fun _ _ => output_nodata_value, fun _ _ => 0)

/-- The finished tile: the normalization loop (lines 568-573) divides a pixel
by its accumulated weight exactly when that weight is `> 0`. -/
def prerasterize (lw : LW) (blend_radius : ℕ) (output_nodata_value : ℚ)
    (contribs : List Contribution) (c r : ℕ) : ℚ :=
  let tw := accum_state lw blend_radius output_nodata_value contribs
  if 0 < tw.2 c r then tw.1 c r / tw.2 c r else tw.1 c r

/-- Contribution `ct` touches tile pixel `(c,r)`: some in-range intersection
cell with a valid resampled pixel lands on `(c,r)`. -/
def touches (blend_radius : ℕ) (ct : Contribution) (c r : ℕ) : Prop :=
  ∃ cc, cc < ct.width ∧ ∃ rr, rr < ct.height ∧
    (ct.pixel (cc + blend_radius) (rr + blend_radius)).isSome = true ∧
    cc + ct.offC = c ∧ rr + ct.offR = r

instance (blend_radius : ℕ) (ct : Contribution) (c r : ℕ) :
    Decidable (touches blend_radius ct c r) := by
  unfold touches; infer_instance

/-! ### Control flow and observable events of one run

`Event` records the externally observable actions the tool performs in order:
opening an input image on disk (`file_image_size` at lines 292-293, 331 and
356, and `get_input_image` via `match_ip_in_regions` at lines 202-203 and in
`main` at line 731), attempting feature matching on a consecutive pair
(`detect_match_ip` at line 207), and rasterizing output tiles (the block
write at lines 743-749).  Fatal `vw_throw`s become `Except.error`; `main` has
no active try/catch (lines 712 and 751 are commented out), so an error aborts
the run at the point it is raised. -/

inductive Event
  | openImage : ℕ → Event
  | alignPair : ℕ → ℕ → Event
  | renderTile : Event
deriving DecidableEq

inductive Err
  | noImages            -- "No images to mosaic." (line 684)
  | noOutputName        -- "Missing output image name." (line 687)
  | badOrientation      -- "Unrecognized image orientation!" (line 309)
  | ransacFailed        -- "Automatic Alignment failed in RANSAC fit!" (line 269)
deriving DecidableEq

instance (ε α : Type) [DecidableEq ε] [DecidableEq α] : DecidableEq (Except ε α) :=
  fun a b =>
    match a, b with
    | Except.ok x, Except.ok y =>
      if h : x = y then Decidable.isTrue (by rw [h])
      else Decidable.isFalse (fun hc => h (by cases hc; rfl))
    | Except.error x, Except.error y =>
      if h : x = y then Decidable.isTrue (by rw [h])
      else Decidable.isFalse (fun hc => h (by cases hc; rfl))
    | Except.ok _, Except.error _ => Decidable.isFalse (fun hc => Except.noConfusion hc)
    | Except.error _, Except.ok _ => Decidable.isFalse (fun hc => Except.noConfusion hc)

/-- The parameters handed to `vw::math::RandomSampleConsensus` (lines 246-265). -/
structure RansacParams where
  num_iterations : ℕ
  inlier_threshold : ℚ
  min_num_output_inliers : ℕ
  reduce_min_if_no_fit : Bool
deriving DecidableEq

/-- RANSAC parameter construction in `affine_ip_matching` (lines 248-251):
100 trials, inlier threshold 10, minimum inlier count = half the matched
pairs (`size_t` division), and permission to reduce that minimum when no fit
satisfies it. -/
def ransac_params (num_matches : ℕ) : RansacParams :=
  ⟨100, 10, num_matches / 2, true⟩

/-- `match_ip_in_regions` (lines 191-226): opens both images
(`get_input_image`) and runs the external feature matcher on the two crops. -/
def match_ip_in_regions (j k : ℕ) : List Event :=
  [Event.openImage j, Event.openImage k, Event.alignPair j k]

/-- `affine_ip_matching` (lines 231-283): match interest points, then run
RANSAC with the parameters above.  The external estimator is the oracle
`ransac`; it returns `none` when no model can be produced (any throw inside
the `try` block, including the zero-matches case), in which case the function
rethrows the fatal alignment error. -/
def affine_ip_matching (j k num_matches : ℕ)
    (ransac : RansacParams → Option Affine) : List Event × Except Err Affine :=
  (match_ip_in_regions j k,
   match ransac (ransac_params num_matches) with
   | some tf => Except.ok tf
   | none => Except.error Err.ransacFailed)

/-- The ROI setup of `compute_relative_transform` (lines 297-303): the single
`if` on the orientation sets both ROIs; for any orientation other than
`"horizontal"` both keep their default-constructed empty value. -/
def mosaic_rois (orientation : String) (overlap_width : ℤ) (size1 size2 : ℤ × ℤ) :
    BBoxI × BBoxI :=
  if orientation = "horizontal" then
    (⟨size1.1 - overlap_width, 0, size1.1, size1.2⟩, ⟨0, 0, overlap_width, size2.2⟩)
  else (BBoxI.dflt, BBoxI.dflt)

/-- `compute_relative_transform` (lines 288-314): read both image sizes from
disk (two opens), build the overlap ROIs, throw the orientation error when
either ROI is empty (lines 308-309), otherwise fit. -/
def compute_relative_transform (orientation : String) (overlap_width : ℤ)
    (j k : ℕ) (size1 size2 : ℤ × ℤ) (num_matches : ℕ)
    (ransac : RansacParams → Option Affine) : List Event × Except Err Affine :=
  let opens : List Event := [Event.openImage j, Event.openImage k]
  let rois := mosaic_rois orientation overlap_width size1 size2
  if rois.1.empt ∨ rois.2.empt then (opens, Except.error Err.badOrientation)
  else
    let fit := affine_ip_matching j k num_matches ransac
    (opens ++ fit.1, fit.2)

/-- The loop of `compute_all_image_positions` (lines 351-412) as seen through
its events and outcome: for each image index `i` in the list, fit the pair
`(i-1, i)` and then read image `i`'s size (line 356).  The geometry computed
from the fits is `absolute_transform` / `output_bbox` above. -/
def layout_loop (orientation : String) (overlap_width : ℤ) (sizes : ℕ → ℤ × ℤ)
    (num_matches : ℕ → ℕ) (ransac : ℕ → RansacParams → Option Affine) :
    List ℕ → List Event → List Event × Except Err Unit
  | [], tr => (tr, Except.ok ())
  | i :: rest, tr =>
    let step := compute_relative_transform orientation overlap_width (i - 1) i
      (sizes (i - 1)) (sizes i) (num_matches (i - 1)) (ransac (i - 1))
    match step.2 with
    | Except.error e => (tr ++ step.1, Except.error e)
    | Except.ok _ =>
      layout_loop orientation overlap_width sizes num_matches ransac rest
        (tr ++ step.1 ++ [Event.openImage i])

/-- `compute_all_image_positions`' events (lines 319-415): image 0's size is
read first (line 331), then the loop runs over images `1 .. n-1`. -/
def compute_all_image_positions (orientation : String) (overlap_width : ℤ)
    (sizes : ℕ → ℤ × ℤ) (num_matches : ℕ → ℕ)
    (ransac : ℕ → RansacParams → Option Affine) (n : ℕ) :
    List Event × Except Err Unit :=
  layout_loop orientation overlap_width sizes num_matches ransac
    ((List.range (n - 1)).map (· + 1)) [Event.openImage 0]

/-- `main` (lines 708-753) together with the validation in `handle_arguments`
(lines 683-687): reject an empty image list, then a missing output name; then
compute the layout; on success open every input (line 731) and rasterize the
output.  Any error aborts at once — no tile is rendered. -/
def main_run (orientation : String) (overlap_width : ℤ) (output_image : String)
    (sizes : ℕ → ℤ × ℤ) (num_matches : ℕ → ℕ)
    (ransac : ℕ → RansacParams → Option Affine) (n : ℕ) :
    List Event × Except Err Unit :=
  if n = 0 then ([], Except.error Err.noImages)
  else if output_image = "" then ([], Except.error Err.noOutputName)
  else
    let layout := compute_all_image_positions orientation overlap_width sizes
      num_matches ransac n
    match layout.2 with
    | Except.error e => (layout.1, Except.error e)
    | Except.ok _ =>
      (layout.1 ++ (List.range n).map Event.openImage ++ [Event.renderTile],
       Except.ok ())

/-- The pairs on which feature matching was attempted, in order. -/
def align_pairs (tr : List Event) : List (ℕ × ℕ) :=
  tr.filterMap fun e => match e with
    | Event.alignPair j k => some (j, k)
    | _ => none

/-! ### Tile-size handling in `handle_arguments` (lines 48-52 and 689-703) -/

/-- `fix_tile_multiple` (lines 48-52): if the size is not a multiple of 16,
increase it to `((size / 16) + 1) * 16`.  C++ `int` division and `%` truncate
toward zero, i.e. `Int.tdiv` / `Int.tmod`. -/
def fix_tile_multiple (size : ℤ) : ℤ :=
  if size.tmod 16 ≠ 0 then (size.tdiv 16 + 1) * 16 else size

/-- `blend_radius` defaulting (lines 689-692): an unset (zero) blend radius
becomes the overlap width. -/
def effective_blend_radius (blend_radius overlap_width : ℤ) : ℤ :=
  if blend_radius = 0 then overlap_width else blend_radius

/-- The adjustment applied to each dimension of `opt.raster_tile_size`
(lines 694-702): a dimension below `2 * blend_radius` is replaced by
`2 * blend_radius` and then fixed up to a multiple of 16; a dimension at
least `2 * blend_radius` is left untouched. -/
def handle_tile_dim (blend_radius tile : ℤ) : ℤ :=
  if tile < 2 * blend_radius then fix_tile_multiple (2 * blend_radius) else tile

/-! ### Nodata plumbing (`Options`, lines 155-164, and `main`, lines 726-749)

A `double` that can either be the `Options` constructor default
(`std::numeric_limits<double>::quiet_NaN()`) or an ordinary value is modelled
by `NodataVal`; NaN arithmetic is never performed on these values, they are
only stored and passed along. -/

inductive NodataVal
  | quietNaN
  | val : ℚ → NodataVal
deriving DecidableEq

/-- The nodata-related `Options` fields. -/
structure NodataOptions where
  has_input_nodata_value : Bool
  has_output_nodata_value : Bool
  input_nodata_value : NodataVal
  output_nodata_value : NodataVal
deriving DecidableEq

/-- `handle_arguments` effect on the nodata fields (lines 659-662 and
680-681): a supplied option stores its value, an unsupplied one leaves the
constructor default quiet NaN (lines 161-163). -/
def handle_nodata_arguments (user_input user_output : Option ℚ) : NodataOptions :=
  { has_input_nodata_value := user_input.isSome
    has_output_nodata_value := user_output.isSome
    input_nodata_value := match user_input with
      | some q => NodataVal.val q
      | none => NodataVal.quietNaN
    output_nodata_value := match user_output with
      | some q => NodataVal.val q
      | none => NodataVal.quietNaN }

/-- The three nodata values `main` wires up (lines 726-749):
`local_output_nodata` is the local variable `output_nodata_value` computed at
lines 736-738 from the last input image's nodata; `renderer_nodata` is the
argument passed to `ImageMosaicView` (line 746) and `writer_nodata` the one
passed to `write_selected_image_type` (line 749) — both are
`opt.output_nodata_value`, not the local variable. -/
structure MainNodataWiring where
  local_output_nodata : NodataVal
  renderer_nodata : NodataVal
  writer_nodata : NodataVal
deriving DecidableEq

def main_nodata (opt : NodataOptions) (last_input_nodata : NodataVal) :
    MainNodataWiring :=
  { local_output_nodata :=
      if opt.has_output_nodata_value then opt.output_nodata_value
      else last_input_nodata
    renderer_nodata := opt.output_nodata_value
    writer_nodata := opt.output_nodata_value }

/-! ### Concrete inputs for witnesses and counterexamples -/

/-- A `compute_line_weights` oracle that always answers 1 (an admissible
kernel value: the spec only requires a monotone function bounded in [0,1]). -/
def lwOne : LW := fun _ _ _ _ _ => 1

/-- A 1x1 intersection at the tile origin whose only expanded-grid pixel is
valid with value 5 (used with `blend_radius = 0`, so the expanded grid is the
intersection itself). -/
def ctC1 : Contribution :=
  ⟨0, 0, 1, 1, fun cc rr => if cc = 0 ∧ rr = 0 then some 5 else none⟩

/-- A 1x1 intersection at the tile origin, used with `blend_radius = 1`: the
expanded grid is 3x3 with only the centre pixel valid, of value 4. -/
def ctW : Contribution :=
  ⟨0, 0, 1, 1, fun cc rr => if cc = 1 ∧ rr = 1 then some 4 else none⟩

/-- A 3x3 mask whose centre pixel is the only invalid one. -/
def mask3 : ℕ → ℕ → Bool := fun c r => !(c == 1 && r == 1)

/-- Image sizes for concrete runs: all images are 100x100. -/
def szW : ℕ → ℤ × ℤ := fun _ => (100, 100)

/-- A RANSAC oracle that always produces the translation by (80, 0). -/
def ransacW : ℕ → RansacParams → Option Affine :=
  fun _ _ => some ⟨1, 0, 0, 1, 80, 0⟩

/-- A RANSAC oracle that never produces a model. -/
def ransacNone : ℕ → RansacParams → Option Affine := fun _ _ => none

/-! ### Helper lemmas about box growth -/

theorem qtrunc_le_of_lt_int {p : ℚ} {z : ℤ} (h : p < (z : ℚ)) : qtrunc p ≤ z := by
  unfold qtrunc
  split
  · exact_mod_cast Int.floor_le_floor h.le |>.trans (by simp)
  · exact Int.ceil_le.mpr h.le

theorem le_qtrunc_of_int_lt {z : ℤ} {p : ℚ} (h : (z : ℚ) < p) : z ≤ qtrunc p := by
  unfold qtrunc
  split
  · exact Int.le_floor.mpr h.le
  · calc z = ⌈(z : ℚ)⌉ := by simp
      _ ≤ ⌈p⌉ := Int.ceil_le_ceil h.le

theorem BBoxI.sub_refl (bx : BBoxI) : bx.sub bx :=
  ⟨le_refl _, le_refl _, le_refl _, le_refl _⟩

theorem BBoxI.sub_trans {bx cx dx : BBoxI} (h1 : bx.sub cx) (h2 : cx.sub dx) :
    bx.sub dx :=
  ⟨h2.1.trans h1.1, h2.2.1.trans h1.2.1, h1.2.2.1.trans h2.2.2.1, h1.2.2.2.trans h2.2.2.2⟩

theorem BBoxI.sub_growQ (bx : BBoxI) (p : ℚ × ℚ) : bx.sub (bx.growQ p) := by
  refine ⟨?_, ?_, ?_, ?_⟩ <;> simp only [BBoxI.growQ] <;> split
  · exact qtrunc_le_of_lt_int (by assumption)
  · exact le_refl _
  · exact qtrunc_le_of_lt_int (by assumption)
  · exact le_refl _
  · exact le_qtrunc_of_int_lt (by assumption)
  · exact le_refl _
  · exact le_qtrunc_of_int_lt (by assumption)
  · exact le_refl _

theorem output_bbox_mono (sizes : ℕ → ℤ × ℤ) (rels : ℕ → Affine) {i n : ℕ}
    (h : i ≤ n) : (output_bbox sizes rels i).sub (output_bbox sizes rels n) := by
  induction n with
  | zero => cases Nat.le_zero.mp h; exact BBoxI.sub_refl _
  | succ n ih =>
    rcases Nat.lt_or_ge i (n + 1) with hlt | hge
    · exact BBoxI.sub_trans (ih (Nat.lt_succ_iff.mp hlt)) (BBoxI.sub_growQ _ _)
    · cases Nat.le_antisymm h hge; exact BBoxI.sub_refl _

/-! Fold lemmas: the min-fold is below any valid member, the max-fold above. -/

theorem foldl_min_le_init (p : ℕ → Bool) (L : List ℕ) (acc : ℕ) :
    L.foldl (fun acc x => if p x then min acc x else acc) acc ≤ acc := by
  induction L generalizing acc with
  | nil => exact le_refl _
  | cons y L ih =>
    refine (ih _).trans ?_
    dsimp only
    split
    · exact min_le_left _ _
    · exact le_refl _

theorem foldl_min_le_mem (p : ℕ → Bool) (L : List ℕ) (acc x : ℕ)
    (hx : x ∈ L) (hp : p x = true) :
    L.foldl (fun acc x => if p x then min acc x else acc) acc ≤ x := by
  induction L generalizing acc with
  | nil => cases hx
  | cons y L ih =>
    rcases List.mem_cons.mp hx with rfl | hmem
    · refine (foldl_min_le_init p L _).trans ?_
      dsimp only
      rw [if_pos hp]
      exact min_le_right _ _
    · exact ih _ hmem

theorem le_foldl_max_init (p : ℕ → Bool) (L : List ℕ) (acc : ℕ) :
    acc ≤ L.foldl (fun acc x => if p x then max acc x else acc) acc := by
  induction L generalizing acc with
  | nil => exact le_refl _
  | cons y L ih =>
    refine le_trans ?_ (ih _)
    dsimp only
    split
    · exact le_max_left _ _
    · exact le_refl _

theorem le_foldl_max_mem (p : ℕ → Bool) (L : List ℕ) (acc x : ℕ)
    (hx : x ∈ L) (hp : p x = true) :
    x ≤ L.foldl (fun acc x => if p x then max acc x else acc) acc := by
  induction L generalizing acc with
  | nil => cases hx
  | cons y L ih =>
    rcases List.mem_cons.mp hx with rfl | hmem
    · refine le_trans ?_ (le_foldl_max_init p L _)
      dsimp only
      rw [if_pos hp]
      exact le_max_right _ _
    · exact ih _ hmem

theorem minValInRow_le (valid : ℕ → ℕ → Bool) (numCols row col : ℕ)
    (hc : col < numCols) (hv : valid col row = true) :
    minValInRow valid numCols row ≤ col :=
  foldl_min_le_mem (fun col => valid col row) _ _ _ (List.mem_range.mpr hc) hv

theorem le_maxValInRow (valid : ℕ → ℕ → Bool) (numCols row col : ℕ)
    (hc : col < numCols) (hv : valid col row = true) :
    col ≤ maxValInRow valid numCols row :=
  le_foldl_max_mem (fun col => valid col row) _ _ _ (List.mem_range.mpr hc) hv

theorem minValInCol_le (valid : ℕ → ℕ → Bool) (numRows col row : ℕ)
    (hr : row < numRows) (hv : valid col row = true) :
    minValInCol valid numRows col ≤ row :=
  foldl_min_le_mem (fun row => valid col row) _ _ _ (List.mem_range.mpr hr) hv

theorem le_maxValInCol (valid : ℕ → ℕ → Bool) (numRows col row : ℕ)
    (hr : row < numRows) (hv : valid col row = true) :
    row ≤ maxValInCol valid numRows col :=
  le_foldl_max_mem (fun row => valid col row) _ _ _ (List.mem_range.mpr hr) hv

/-! Frame lemmas: a tile pixel no contribution touches keeps its initial value. -/

theorem paste_pixel_frame (lw : LW) (blend_radius : ℕ) (ct : Contribution)
    (rr cc c r : ℕ)
    (h : ¬((ct.pixel (cc + blend_radius) (rr + blend_radius)).isSome = true ∧
           cc + ct.offC = c ∧ rr + ct.offR = r))
    (tw : (ℕ → ℕ → ℚ) × (ℕ → ℕ → ℚ)) :
    (paste_pixel lw blend_radius ct rr tw cc).1 c r = tw.1 c r ∧
    (paste_pixel lw blend_radius ct rr tw cc).2 c r = tw.2 c r := by
  unfold paste_pixel
  cases hpx : ct.pixel (cc + blend_radius) (rr + blend_radius) with
  | none => exact ⟨rfl, rfl⟩
  | some v =>
    have hne : ¬(c = cc + ct.offC ∧ r = rr + ct.offR) := by
      intro ⟨h1, h2⟩
      exact h ⟨by rw [hpx]; rfl, h1.symm, h2.symm⟩
    constructor <;> simp only [updf, if_neg hne]

theorem paste_row_frame (lw : LW) (blend_radius : ℕ) (ct : Contribution)
    (rr c r : ℕ)
    (h : ∀ cc, cc < ct.width →
      ¬((ct.pixel (cc + blend_radius) (rr + blend_radius)).isSome = true ∧
        cc + ct.offC = c ∧ rr + ct.offR = r))
    (tw : (ℕ → ℕ → ℚ) × (ℕ → ℕ → ℚ)) :
    (paste_row lw blend_radius ct tw rr).1 c r = tw.1 c r ∧
    (paste_row lw blend_radius ct tw rr).2 c r = tw.2 c r := by
  unfold paste_row
  have hgen : ∀ (L : List ℕ), (∀ cc ∈ L, cc < ct.width) →
      ∀ tw : (ℕ → ℕ → ℚ) × (ℕ → ℕ → ℚ),
      (L.foldl (paste_pixel lw blend_radius ct rr) tw).1 c r = tw.1 c r ∧
      (L.foldl (paste_pixel lw blend_radius ct rr) tw).2 c r = tw.2 c r := by
    intro L
    induction L with
    | nil => exact fun _ _ => ⟨rfl, rfl⟩
    | cons x L ih =>
      intro hL tw
      have hx := paste_pixel_frame lw blend_radius ct rr x c r
        (h x (hL x (List.mem_cons_self x L))) tw
      have hrest := ih (fun cc hcc => hL cc (List.mem_cons_of_mem x hcc))
        (paste_pixel lw blend_radius ct rr tw x)
      exact ⟨hrest.1.trans hx.1, hrest.2.trans hx.2⟩
  exact hgen (List.range ct.width) (fun cc hcc => List.mem_range.mp hcc) tw

theorem apply_contribution_frame (lw : LW) (blend_radius : ℕ) (ct : Contribution)
    (c r : ℕ) (h : ¬touches blend_radius ct c r)
    (tw : (ℕ → ℕ → ℚ) × (ℕ → ℕ → ℚ)) :
    (apply_contribution lw blend_radius ct tw).1 c r = tw.1 c r ∧
    (apply_contribution lw blend_radius ct tw).2 c r = tw.2 c r := by
  unfold apply_contribution
  have hgen : ∀ (L : List ℕ), (∀ rr ∈ L, rr < ct.height) →
      ∀ tw : (ℕ → ℕ → ℚ) × (ℕ → ℕ → ℚ),
      (L.foldl (paste_row lw blend_radius ct) tw).1 c r = tw.1 c r ∧
      (L.foldl (paste_row lw blend_radius ct) tw).2 c r = tw.2 c r := by
    intro L
    induction L with
    | nil => exact fun _ _ => ⟨rfl, rfl⟩
    | cons x L ih =>
      intro hL tw
      have hrow : ∀ cc, cc < ct.width →
          ¬((ct.pixel (cc + blend_radius) (x + blend_radius)).isSome = true ∧
            cc + ct.offC = c ∧ x + ct.offR = r) := by
        intro cc hcc hcontra
        exact h ⟨cc, hcc, x, hL x (List.mem_cons_self x L), hcontra⟩
      have hx := paste_row_frame lw blend_radius ct x c r hrow tw
      have hrest := ih (fun rr hrr => hL rr (List.mem_cons_of_mem x hrr))
        (paste_row lw blend_radius ct tw x)
      exact ⟨hrest.1.trans hx.1, hrest.2.trans hx.2⟩
  exact hgen (List.range ct.height) (fun rr hrr => List.mem_range.mp hrr) tw

theorem accum_state_frame (lw : LW) (blend_radius : ℕ) (output_nodata_value : ℚ)
    (contribs : List Contribution) (c r : ℕ)
    (h : ∀ ct ∈ contribs, ¬touches blend_radius ct c r) :
    (accum_state lw blend_radius output_nodata_value contribs).1 c r = output_nodata_value ∧
    (accum_state lw blend_radius output_nodata_value contribs).2 c r = 0 := by
  unfold accum_state
  have hgen : ∀ (L : List Contribution), (∀ ct ∈ L, ¬touches blend_radius ct c r) →
      ∀ tw : (ℕ → ℕ → ℚ) × (ℕ → ℕ → ℚ),
      (L.foldl (fun tw ct => apply_contribution lw blend_radius ct tw) tw).1 c r = tw.1 c r ∧
      (L.foldl (fun tw ct => apply_contribution lw blend_radius ct tw) tw).2 c r = tw.2 c r := by
    intro L
    induction L with
    | nil => exact fun _ _ => ⟨rfl, rfl⟩
    | cons x L ih =>
      intro hL tw
      have hx := apply_contribution_frame lw blend_radius x c r
        (hL x (List.mem_cons_self x L)) tw
      have hrest := ih (fun ct hct => hL ct (List.mem_cons_of_mem x hct))
        (apply_contribution lw blend_radius x tw)
      exact ⟨hrest.1.trans hx.1, hrest.2.trans hx.2⟩
  exact hgen contribs h _

/-! ### Helper lemmas about the run model -/

theorem compute_relative_transform_ok_trace (orientation : String)
    (overlap_width : ℤ) (j k : ℕ) (size1 size2 : ℤ × ℤ) (num_matches : ℕ)
    (ransac : RansacParams → Option Affine) (tf : Affine)
    (h : (compute_relative_transform orientation overlap_width j k size1 size2
            num_matches ransac).2 = Except.ok tf) :
    (compute_relative_transform orientation overlap_width j k size1 size2
       num_matches ransac).1 =
      [Event.openImage j, Event.openImage k, Event.openImage j, Event.openImage k,
       Event.alignPair j k] := by
  unfold compute_relative_transform affine_ip_matching match_ip_in_regions at *
  dsimp only at h ⊢
  by_cases hc : (mosaic_rois orientation overlap_width size1 size2).1.empt ∨
      (mosaic_rois orientation overlap_width size1 size2).2.empt
  · rw [if_pos hc] at h; cases h
  · rw [if_neg hc]
    rfl

theorem compute_relative_transform_no_render (orientation : String)
    (overlap_width : ℤ) (j k : ℕ) (size1 size2 : ℤ × ℤ) (num_matches : ℕ)
    (ransac : RansacParams → Option Affine) :
    Event.renderTile ∉ (compute_relative_transform orientation overlap_width j k
      size1 size2 num_matches ransac).1 := by
  unfold compute_relative_transform
  dsimp only
  split
  · simp
  · unfold affine_ip_matching match_ip_in_regions
    simp

theorem compute_relative_transform_horizontal (overlap_width : ℤ)
    (hov : 0 < overlap_width) (j k : ℕ) (size1 size2 : ℤ × ℤ)
    (h1 : 0 < size1.2) (h2 : 0 < size2.2) (num_matches : ℕ)
    (ransac : RansacParams → Option Affine) :
    (compute_relative_transform "horizontal" overlap_width j k size1 size2
       num_matches ransac).2 =
      match ransac (ransac_params num_matches) with
      | some tf => Except.ok tf
      | none => Except.error Err.ransacFailed := by
  unfold compute_relative_transform mosaic_rois
  dsimp only
  rw [if_pos rfl]
  rw [if_neg]
  · rfl
  · unfold BBoxI.empt
    dsimp only
    omega

theorem layout_loop_align (orientation : String) (overlap_width : ℤ)
    (sizes : ℕ → ℤ × ℤ) (num_matches : ℕ → ℕ)
    (ransac : ℕ → RansacParams → Option Affine) :
    ∀ (L : List ℕ) (tr : List Event),
      (layout_loop orientation overlap_width sizes num_matches ransac L tr).2 =
        Except.ok () →
      align_pairs (layout_loop orientation overlap_width sizes num_matches ransac
        L tr).1 = align_pairs tr ++ L.map (fun i => (i - 1, i)) := by
  intro L
  induction L with
  | nil => intro tr _; simp [layout_loop]
  | cons i rest ih =>
    intro tr hok
    simp only [layout_loop] at hok ⊢
    split at hok
    next e heq => simp at hok
    next tf heq =>
      rw [ih _ hok]
      have htr := compute_relative_transform_ok_trace orientation overlap_width
        (i - 1) i (sizes (i - 1)) (sizes i) (num_matches (i - 1)) (ransac (i - 1))
        tf heq
      rw [List.map_cons]
      unfold align_pairs
      rw [List.filterMap_append, List.filterMap_append, htr]
      simp [align_pairs]

theorem layout_loop_no_render (orientation : String) (overlap_width : ℤ)
    (sizes : ℕ → ℤ × ℤ) (num_matches : ℕ → ℕ)
    (ransac : ℕ → RansacParams → Option Affine) :
    ∀ (L : List ℕ) (tr : List Event), Event.renderTile ∉ tr →
      Event.renderTile ∉
        (layout_loop orientation overlap_width sizes num_matches ransac L tr).1 := by
  intro L
  induction L with
  | nil => intro tr htr; exact htr
  | cons i rest ih =>
    intro tr htr
    simp only [layout_loop]
    have hnr := compute_relative_transform_no_render orientation overlap_width
      (i - 1) i (sizes (i - 1)) (sizes i) (num_matches (i - 1)) (ransac (i - 1))
    split
    next e heq =>
      dsimp only
      rw [List.mem_append]
      rintro (h | h)
      · exact htr h
      · exact hnr h
    next tf heq =>
      refine ih _ ?_
      rw [List.mem_append, List.mem_append]
      rintro ((h | h) | h)
      · exact htr h
      · exact hnr h
      · simp at h

theorem layout_loop_fit_failure (overlap_width : ℤ) (hov : 0 < overlap_width)
    (sizes : ℕ → ℤ × ℤ) (hs : ∀ i, 0 < (sizes i).2) (num_matches : ℕ → ℕ)
    (ransac : ℕ → RansacParams → Option Affine) :
    ∀ (L : List ℕ) (tr : List Event),
      (∃ i ∈ L, ransac (i - 1) (ransac_params (num_matches (i - 1))) = none) →
      (layout_loop "horizontal" overlap_width sizes num_matches ransac L tr).2 =
        Except.error Err.ransacFailed := by
  intro L
  induction L with
  | nil => rintro tr ⟨i, hi, -⟩; cases hi
  | cons i rest ih =>
    rintro tr ⟨j, hj, hfail⟩
    simp only [layout_loop]
    have hhor := compute_relative_transform_horizontal overlap_width hov (i - 1) i
      (sizes (i - 1)) (sizes i) (hs (i - 1)) (hs i) (num_matches (i - 1))
      (ransac (i - 1))
    split
    next e heq =>
      rw [hhor] at heq
      rcases hrc : ransac (i - 1) (ransac_params (num_matches (i - 1))) with _ | tf
      · rw [hrc] at heq
        dsimp only at heq
        injection heq with h3
        show Except.error e = Except.error Err.ransacFailed
        rw [h3]
      · rw [hrc] at heq
        cases heq
    next tf heq =>
      rw [hhor] at heq
      rcases hrc : ransac (i - 1) (ransac_params (num_matches (i - 1))) with _ | tf2
      · rw [hrc] at heq
        cases heq
      · refine ih _ ⟨j, ?_, hfail⟩
        rcases List.mem_cons.mp hj with rfl | hmem
        · rw [hfail] at hrc; cases hrc
        · exact hmem

theorem align_pairs_append (a b : List Event) :
    align_pairs (a ++ b) = align_pairs a ++ align_pairs b :=
  List.filterMap_append a b _

theorem align_pairs_open (j : ℕ) : align_pairs [Event.openImage j] = [] := rfl

theorem align_pairs_render : align_pairs [Event.renderTile] = [] := rfl

theorem align_pairs_opens (L : List ℕ) :
    align_pairs (L.map Event.openImage) = [] := by
  induction L with
  | nil => rfl
  | cons x L ih =>
    rw [List.map_cons, show Event.openImage x :: L.map Event.openImage =
      [Event.openImage x] ++ L.map Event.openImage from rfl, align_pairs_append,
      align_pairs_open, ih]
    rfl

theorem fix_tile_multiple_bounds (m : ℤ) :
    m ≤ fix_tile_multiple m ∧ fix_tile_multiple m % 16 = 0 := by
  unfold fix_tile_multiple
  have hid := Int.tdiv_add_tmod m 16
  have hlt := Int.tmod_lt_of_pos m (show (0:ℤ) < 16 by norm_num)
  rcases Decidable.em (m.tmod 16 ≠ 0) with h | h
  · rw [if_pos h]
    generalize m.tdiv 16 = q at hid ⊢
    generalize m.tmod 16 = r at hid hlt h
    omega
  · rw [if_neg h]
    push_neg at h
    generalize m.tdiv 16 = q at hid ⊢
    rw [h] at hid
    omega

theorem compute_relative_transform_bad_orientation (orientation : String)
    (h : orientation ≠ "horizontal") (overlap_width : ℤ) (j k : ℕ)
    (size1 size2 : ℤ × ℤ) (num_matches : ℕ)
    (ransac : RansacParams → Option Affine) :
    compute_relative_transform orientation overlap_width j k size1 size2
      num_matches ransac =
      ([Event.openImage j, Event.openImage k], Except.error Err.badOrientation) := by
  simp only [compute_relative_transform, mosaic_rois, if_neg h]
  rw [if_pos (by decide)]

/-! ### Claim theorems -/

/-- C5: for every non-empty ordered image list, image 0's absolute transform is
the identity affine transform (identity 2x2 matrix, zero translation) and
image 0's canvas bounding box equals its untransformed native extent from
(0,0) to its image size, exactly. -/
theorem first_image_identity (sizes : ℕ → ℤ × ℤ) (rels : ℕ → Affine)
    (h1 : 0 ≤ (sizes 0).1) (h2 : 0 ≤ (sizes 0).2) :
    absolute_transform rels 0 = Affine.id ∧
    output_bbox sizes rels 0 = ⟨0, 0, (sizes 0).1, (sizes 0).2⟩ := by
  refine ⟨rfl, ?_⟩
  show (BBoxI.dflt.growI (0, 0)).growI (sizes 0) = _
  unfold BBoxI.dflt BBoxI.growI int32max int32min
  dsimp only
  congr 1 <;> split_ifs <;> omega

/-- Witness for C5 at a concrete input. -/
theorem first_image_identity_witness :
    absolute_transform relsC 0 = Affine.id ∧
    output_bbox szC relsC 0 = ⟨0, 0, 10, 10⟩ :=
  first_image_identity szC relsC (by decide) (by decide)

/-- C2 (amended): the overall canvas box grows monotonically as images are
processed in strip order, and its step growth is exactly the grow by the new
image's forward-mapped bottom-right corner (not the union of full transformed
extents — see the counterexample). -/
theorem overall_bbox_growth (sizes : ℕ → ℤ × ℤ) (rels : ℕ → Affine) (i n : ℕ)
    (h : i ≤ n) :
    (output_bbox sizes rels i).sub (output_bbox sizes rels n) ∧
    output_bbox sizes rels (n + 1) =
      (output_bbox sizes rels n).growQ
        ((absolute_transform rels (n + 1)).fwd (qp (sizes (n + 1)))) :=
  ⟨output_bbox_mono sizes rels h, rfl⟩

/-- Witness for C2's amended theorem at a concrete input. -/
theorem overall_bbox_growth_witness :
    (output_bbox szC relsC 0).sub (output_bbox szC relsC 1) ∧
    output_bbox szC relsC 2 =
      (output_bbox szC relsC 1).growQ
        ((absolute_transform relsC 2).fwd (qp (szC 2))) :=
  overall_bbox_growth szC relsC 0 1 (by norm_num)

/-- Counterexample to C2 as stated: with two 10x10 images and a fitted
leftward translation by (-50,0), the overall canvas box is not the union of
the images' canvas bounding boxes (their full extents mapped through their
absolute transforms): the second image's mapped extent reaches x = -50 while
the overall box only reaches x = -40 (only the bottom-right corner is grown
in, line 390). -/
theorem overall_bbox_not_union_of_full_extents :
    (output_bbox szC relsC 1).toQ ≠ spec_union_box szC relsC 1 := by
  with_unfolding_all decide

/-- C4: for every subsequent image `i+1`, its absolute transform equals the
composition of image `i`'s absolute transform with the freshly fitted pairwise
transform, as a homogeneous 3x3 matrix product; and on a successful run the
pairwise matcher is invoked exactly on the consecutive pairs
`(0,1), (1,2), ...` in order — never on non-adjacent images and never
re-anchored to image 0. -/
theorem transform_chaining (rels : ℕ → Affine) (i : ℕ) (orientation : String)
    (overlap_width : ℤ) (output_image : String) (sizes : ℕ → ℤ × ℤ)
    (num_matches : ℕ → ℕ) (ransac : ℕ → RansacParams → Option Affine) (n : ℕ)
    (tr : List Event) :
    absolute_transform rels (i + 1) = (absolute_transform rels i).comp (rels i) ∧
    (main_run orientation overlap_width output_image sizes num_matches ransac n =
        (tr, Except.ok ()) →
      align_pairs tr = (List.range (n - 1)).map (fun j => (j, j + 1))) := by
  refine ⟨rfl, ?_⟩
  intro hrun
  by_cases hn : n = 0
  · rw [main_run, if_pos hn] at hrun
    simp at hrun
  · rw [main_run, if_neg hn] at hrun
    by_cases ho : output_image = ""
    · rw [if_pos ho] at hrun
      simp at hrun
    · rw [if_neg ho] at hrun
      dsimp only at hrun
      split at hrun
      next e heq => simp at hrun
      next u heq =>
        have htr : tr = (compute_all_image_positions orientation overlap_width sizes
            num_matches ransac n).1 ++ (List.range n).map Event.openImage ++
            [Event.renderTile] := by
          have := congrArg Prod.fst hrun
          exact this.symm
        subst htr
        have hok : (layout_loop orientation overlap_width sizes num_matches ransac
            ((List.range (n - 1)).map (· + 1)) [Event.openImage 0]).2 =
            Except.ok () := by
          cases u
          exact heq
        have halign := layout_loop_align orientation overlap_width sizes num_matches
          ransac ((List.range (n - 1)).map (· + 1)) [Event.openImage 0] hok
        have hcast : (compute_all_image_positions orientation overlap_width sizes
            num_matches ransac n).1 = (layout_loop orientation overlap_width sizes
            num_matches ransac ((List.range (n - 1)).map (· + 1))
            [Event.openImage 0]).1 := rfl
        rw [hcast, align_pairs_append, align_pairs_append, halign, align_pairs_open,
          align_pairs_opens, align_pairs_render]
        simp only [List.nil_append, List.append_nil, List.map_map]
        exact List.map_congr_left (fun x _ => by simp)

/-- Witness for C4 at a concrete successful two-image run. -/
theorem transform_chaining_witness :
    absolute_transform relsC 1 = (absolute_transform relsC 0).comp (relsC 0) ∧
    align_pairs (main_run "horizontal" 20 "out.tif" szW (fun _ => 50) ransacW 2).1 =
      [(0, 1)] := by
  constructor
  · exact (transform_chaining relsC 0 "horizontal" 20 "out.tif" szW (fun _ => 50)
      ransacW 2 (main_run "horizontal" 20 "out.tif" szW (fun _ => 50) ransacW 2).1).1
  · rw [(transform_chaining relsC 0 "horizontal" 20 "out.tif" szW (fun _ => 50)
      ransacW 2 (main_run "horizontal" 20 "out.tif" szW (fun _ => 50) ransacW 2).1).2
      (by with_unfolding_all decide)]
    decide

/-- C3 (amended): for every run configured with an unsupported orientation and
at least two images, the program does raise the configuration error
("Unrecognized image orientation!"), but only during the first pairwise
alignment, after three image opens have already happened (image 0's size read
at line 331 and both sizes of the first pair at lines 292-293) — not before
any image is opened. -/
theorem orientation_error_after_size_reads (orientation : String)
    (h1 : orientation ≠ "horizontal") (overlap_width : ℤ) (output_image : String)
    (h2 : output_image ≠ "") (sizes : ℕ → ℤ × ℤ) (num_matches : ℕ → ℕ)
    (ransac : ℕ → RansacParams → Option Affine) (n : ℕ) (h3 : 2 ≤ n) :
    main_run orientation overlap_width output_image sizes num_matches ransac n =
      ([Event.openImage 0, Event.openImage 0, Event.openImage 1],
       Except.error Err.badOrientation) := by
  obtain ⟨k, rfl⟩ : ∃ k, n = k + 2 := ⟨n - 2, by omega⟩
  have hcomp : compute_all_image_positions orientation overlap_width sizes
      num_matches ransac (k + 2) =
      ([Event.openImage 0, Event.openImage 0, Event.openImage 1],
       Except.error Err.badOrientation) := by
    unfold compute_all_image_positions
    have hL : (List.range (k + 2 - 1)).map (· + 1) =
        1 :: (List.range k).map (fun x => x + 1 + 1) := by
      show (List.range (k + 1)).map (· + 1) = _
      rw [List.range_succ_eq_map, List.map_cons, List.map_map]
      refine List.cons_eq_cons.mpr ⟨rfl, ?_⟩
      exact List.map_congr_left (fun x _ => by
        simp [Function.comp, Nat.succ_eq_add_one])
    rw [hL]
    simp only [layout_loop]
    rw [compute_relative_transform_bad_orientation orientation h1 overlap_width
      (1 - 1) 1 (sizes (1 - 1)) (sizes 1) (num_matches (1 - 1)) (ransac (1 - 1))]
    rfl
  simp only [main_run, if_neg (show ¬(k + 2 = 0) by omega), if_neg h2, hcomp]

/-- Counterexample to C3 as stated: a concrete run with `orientation =
"vertical"` and two images does raise the configuration error, but only after
images have been opened — the trace before the error contains image opens
(three size reads), so the error is not raised before any image is opened. -/
theorem orientation_error_not_before_open :
    (main_run "vertical" 2000 "out.tif" szW (fun _ => 0) ransacNone 2).2 =
      Except.error Err.badOrientation ∧
    Event.openImage 0 ∈ (main_run "vertical" 2000 "out.tif" szW (fun _ => 0)
      ransacNone 2).1 := by
  with_unfolding_all decide

/-- Witness for C3's amended theorem at a concrete input. -/
theorem orientation_error_witness :
    main_run "vertical" 2000 "out.tif" szW (fun _ => 0) ransacNone 2 =
      ([Event.openImage 0, Event.openImage 0, Event.openImage 1],
       Except.error Err.badOrientation) :=
  orientation_error_after_size_reads "vertical" (by decide) 2000 "out.tif"
    (by decide) szW (fun _ => 0) ransacNone 2 (by norm_num)

/-- C6: in the Weight Field Builder, every invalid pixel gets the hole-fill
value exactly when it lies inside both its column's valid row span and its
row's valid column span, and the border value otherwise; in particular a
single invalid pixel all four of whose neighbours are valid gets the
hole-fill value, never the border value. -/
theorem invalid_pixel_weight (lw : LW) (valid : ℕ → ℕ → Bool)
    (numCols numRows : ℕ) (hole_fill_value border_fill_value : ℚ) (col row : ℕ)
    (hinv : valid col row = false) :
    (centerline_weights3 lw valid numCols numRows hole_fill_value
        border_fill_value col row =
      if (minValInCol valid numRows col ≤ row ∧ row ≤ maxValInCol valid numRows col) ∧
         (minValInRow valid numCols row ≤ col ∧ col ≤ maxValInRow valid numCols row)
      then hole_fill_value else border_fill_value) ∧
    (1 ≤ col → col + 1 < numCols → 1 ≤ row → row + 1 < numRows →
     valid (col - 1) row = true → valid (col + 1) row = true →
     valid col (row - 1) = true → valid col (row + 1) = true →
     centerline_weights3 lw valid numCols numRows hole_fill_value
       border_fill_value col row = hole_fill_value) := by
  have hbase : centerline_weights3 lw valid numCols numRows hole_fill_value
      border_fill_value col row =
      if (minValInCol valid numRows col ≤ row ∧ row ≤ maxValInCol valid numRows col) ∧
         (minValInRow valid numCols row ≤ col ∧ col ≤ maxValInRow valid numCols row)
      then hole_fill_value else border_fill_value := by
    unfold centerline_weights3
    rw [hinv]
    rw [if_neg (by simp)]
  refine ⟨hbase, ?_⟩
  intro hc1 hc2 hr1 hr2 hv1 hv2 hv3 hv4
  rw [hbase, if_pos]
  refine ⟨⟨?_, ?_⟩, ?_, ?_⟩
  · exact (minValInCol_le valid numRows col (row - 1) (by omega) hv3).trans (by omega)
  · exact le_trans (by omega) (le_maxValInCol valid numRows col (row + 1) hr2 hv4)
  · exact (minValInRow_le valid numCols row (col - 1) (by omega) hv1).trans (by omega)
  · exact le_trans (by omega) (le_maxValInRow valid numCols row (col + 1) hc2 hv2)

/-- Witness for C6: in a 3x3 mask whose centre is the only invalid pixel, the
centre gets the default hole-fill value 0, not the border value -1. -/
theorem invalid_pixel_weight_witness :
    centerline_weights3 lwOne mask3 3 3 0 (-1) 1 1 = 0 :=
  (invalid_pixel_weight lwOne mask3 3 3 0 (-1) 1 1 rfl).2
    (by norm_num) (by norm_num) (by norm_num) (by norm_num) rfl rfl rfl rfl

/-- C7: in the Tiled Mosaic Renderer, the weight actually used for
accumulation never exceeds the per-pair ceiling
`blend_radius / (min(intersection height, intersection width)/2 + blend_radius)`
(the `cutoff`), and every blend-field weight above the cutoff is clamped down
to exactly the cutoff before accumulation. -/
theorem blend_weight_ceiling (lw : LW) (blend_radius : ℕ) (ct : Contribution)
    (cc rr : ℕ) :
    used_weight lw blend_radius ct cc rr ≤ cutoff blend_radius ct ∧
    (cutoff blend_radius ct < input_weights lw blend_radius ct cc rr →
      used_weight lw blend_radius ct cc rr = cutoff blend_radius ct) := by
  unfold used_weight clamp_weight
  constructor
  · split
    · exact le_refl _
    · exact not_lt.mp (by assumption)
  · intro h
    rw [if_pos h]

/-- Witness for C7 at a concrete input where the raw weight 1 exceeds the
cutoff 2/3 and is clamped to exactly 2/3. -/
theorem blend_weight_ceiling_witness :
    used_weight lwOne 1 ctW 1 1 = cutoff 1 ctW ∧
    used_weight lwOne 1 ctW 1 1 ≤ cutoff 1 ctW :=
  ⟨(blend_weight_ceiling lwOne 1 ctW 1 1).2 (by with_unfolding_all decide),
   (blend_weight_ceiling lwOne 1 ctW 1 1).1⟩

/-- C1 (amended): after all images are processed, every tile pixel with
positive accumulated weight is divided by that weight; a pixel to which no
valid resampled pixel ever contributed retains the output nodata sentinel.
(A valid pixel contributing with weight exactly 0 overwrites the sentinel
with `value * 0 = 0` while leaving the accumulated weight zero, so such a
pixel does not retain the sentinel — see the counterexample.) -/
theorem tile_normalization (lw : LW) (blend_radius : ℕ)
    (output_nodata_value : ℚ) (contribs : List Contribution) (c r : ℕ) :
    (0 < (accum_state lw blend_radius output_nodata_value contribs).2 c r →
      prerasterize lw blend_radius output_nodata_value contribs c r =
        (accum_state lw blend_radius output_nodata_value contribs).1 c r /
        (accum_state lw blend_radius output_nodata_value contribs).2 c r) ∧
    ((∀ ct ∈ contribs, ¬touches blend_radius ct c r) →
      prerasterize lw blend_radius output_nodata_value contribs c r =
        output_nodata_value ∧
      (accum_state lw blend_radius output_nodata_value contribs).2 c r = 0) := by
  constructor
  · intro h
    show (if 0 < (accum_state lw blend_radius output_nodata_value contribs).2 c r
      then _ else _) = _
    rw [if_pos h]
  · intro h
    obtain ⟨ht, hw⟩ := accum_state_frame lw blend_radius output_nodata_value
      contribs c r h
    refine ⟨?_, hw⟩
    show (if 0 < (accum_state lw blend_radius output_nodata_value contribs).2 c r
      then _ else _) = _
    rw [if_neg (by rw [hw]; exact lt_irrefl 0), ht]

/-- Counterexample to C1 as stated: one valid resampled pixel of value 5
contributes with weight exactly 0 (its blend weight 1 is clamped to the
cutoff `0/(1/2+0) = 0` at `blend_radius = 0`): the pixel's accumulated weight
stays 0, yet the finished tile holds `5 * 0 = 0` there instead of the nodata
sentinel -9999 it was initialised with. -/
theorem zero_weight_pixel_overwrites_nodata :
    (accum_state lwOne 0 (-9999) [ctC1]).2 0 0 = 0 ∧
    prerasterize lwOne 0 (-9999) [ctC1] 0 0 = 0 ∧
    prerasterize lwOne 0 (-9999) [ctC1] 0 0 ≠ -9999 := by
  with_unfolding_all decide

/-- Witness for C1's amended theorem: a pixel with accumulated weight 2/3 is
divided by it, and a pixel no contribution touches keeps the sentinel. -/
theorem tile_normalization_witness :
    (0 < (accum_state lwOne 1 (-9999) [ctW]).2 0 0 ∧
     prerasterize lwOne 1 (-9999) [ctW] 0 0 =
       (accum_state lwOne 1 (-9999) [ctW]).1 0 0 /
       (accum_state lwOne 1 (-9999) [ctW]).2 0 0) ∧
    prerasterize lwOne 1 (-9999) [ctW] 5 5 = -9999 :=
  ⟨⟨by with_unfolding_all decide,
    (tile_normalization lwOne 1 (-9999) [ctW] 0 0).1 (by with_unfolding_all decide)⟩,
   ((tile_normalization lwOne 1 (-9999) [ctW] 5 5).2
     (by with_unfolding_all decide)).1⟩

/-- C8: the RANSAC fit in the Pairwise Aligner starts from a minimum inlier
count of half the matched pairs and is permitted to reduce it; a pair for
which no model can be produced (the oracle returns `none`, covering the
zero-matches case) makes the aligner throw, any error aborts the run with no
tile ever rendered, and on a horizontal run with a failing pair the whole run
ends in the RANSAC error. -/
theorem ransac_minimum_and_abort :
    (∀ m : ℕ, (ransac_params m).min_num_output_inliers = m / 2 ∧
              (ransac_params m).reduce_min_if_no_fit = true) ∧
    (∀ (j k num_matches : ℕ) (rc : RansacParams → Option Affine),
      rc (ransac_params num_matches) = none →
      (affine_ip_matching j k num_matches rc).2 = Except.error Err.ransacFailed) ∧
    (∀ (orientation : String) (overlap_width : ℤ) (output_image : String)
       (sizes : ℕ → ℤ × ℤ) (num_matches : ℕ → ℕ)
       (ransac : ℕ → RansacParams → Option Affine) (n : ℕ) (tr : List Event)
       (e : Err),
      main_run orientation overlap_width output_image sizes num_matches ransac n =
        (tr, Except.error e) → Event.renderTile ∉ tr) ∧
    (∀ (overlap_width : ℤ) (output_image : String) (sizes : ℕ → ℤ × ℤ)
       (num_matches : ℕ → ℕ) (ransac : ℕ → RansacParams → Option Affine) (n : ℕ),
      0 < overlap_width → output_image ≠ "" → (∀ i, 0 < (sizes i).2) →
      (∃ j, j + 1 < n ∧ ransac j (ransac_params (num_matches j)) = none) →
      (main_run "horizontal" overlap_width output_image sizes num_matches
        ransac n).2 = Except.error Err.ransacFailed) := by
  refine ⟨fun m => ⟨rfl, rfl⟩, ?_, ?_, ?_⟩
  · intro j k num_matches rc hrc
    unfold affine_ip_matching
    rw [hrc]
  · intro orientation overlap_width output_image sizes num_matches ransac n tr e hrun
    by_cases hn : n = 0
    · rw [main_run, if_pos hn] at hrun
      have : tr = [] := (congrArg Prod.fst hrun).symm
      rw [this]
      simp
    · rw [main_run, if_neg hn] at hrun
      by_cases ho : output_image = ""
      · rw [if_pos ho] at hrun
        have : tr = [] := (congrArg Prod.fst hrun).symm
        rw [this]
        simp
      · rw [if_neg ho] at hrun
        dsimp only at hrun
        split at hrun
        next e2 heq =>
          have : tr = (compute_all_image_positions orientation overlap_width sizes
              num_matches ransac n).1 := (congrArg Prod.fst hrun).symm
          rw [this]
          exact layout_loop_no_render orientation overlap_width sizes num_matches
            ransac _ _ (by simp)
        next u heq => simp at hrun
  · intro overlap_width output_image sizes num_matches ransac n hov ho hs ⟨j, hj, hfail⟩
    rw [main_run, if_neg (by omega), if_neg ho]
    dsimp only
    have herr : (compute_all_image_positions "horizontal" overlap_width sizes
        num_matches ransac n).2 = Except.error Err.ransacFailed := by
      unfold compute_all_image_positions
      refine layout_loop_fit_failure overlap_width hov sizes hs num_matches ransac
        _ _ ⟨j + 1, ?_, by simpa using hfail⟩
      rw [List.mem_map]
      exact ⟨j, List.mem_range.mpr (by omega), rfl⟩
    split
    next e2 heq =>
      rw [herr] at heq
      injection heq with h3
      rw [← h3]
    next u heq => rw [herr] at heq; cases heq

/-- Witness for C8 at concrete inputs: with 7 matches the minimum starts at 3;
a failing oracle makes the aligner error; a concrete failing run (zero
matches, oracle `none`) ends in the RANSAC error with no render event. -/
theorem ransac_minimum_and_abort_witness :
    (ransac_params 7).min_num_output_inliers = 3 ∧
    (affine_ip_matching 0 1 0 (fun _ => none)).2 = Except.error Err.ransacFailed ∧
    (main_run "horizontal" 20 "out.tif" szW (fun _ => 0) ransacNone 2).2 =
      Except.error Err.ransacFailed ∧
    Event.renderTile ∉ (main_run "horizontal" 20 "out.tif" szW (fun _ => 0)
      ransacNone 2).1 := by
  refine ⟨(ransac_minimum_and_abort.1 7).1, ?_, ?_, ?_⟩
  · exact ransac_minimum_and_abort.2.1 0 1 0 (fun _ => none) rfl
  · exact ransac_minimum_and_abort.2.2.2 20 "out.tif" szW (fun _ => 0) ransacNone 2
      (by norm_num) (by decide) (fun i => by norm_num [szW]) ⟨0, by norm_num, rfl⟩
  · exact ransac_minimum_and_abort.2.2.1 "horizontal" 20 "out.tif" szW (fun _ => 0)
      ransacNone 2
      (main_run "horizontal" 20 "out.tif" szW (fun _ => 0) ransacNone 2).1
      Err.ransacFailed (by with_unfolding_all decide)

/-- C9 (amended): after argument handling each dimension of the raster tile
size is at least `2 * blend_radius` (not necessarily strictly greater); a
user-supplied dimension smaller than `2 * blend_radius` is replaced by
`2 * blend_radius` rounded up to a multiple of 16 (kept as is when it already
is one), while a dimension at least `2 * blend_radius` is left completely
unchanged — in particular it is not itself rounded to a multiple of 16. -/
theorem tile_size_adjustment (blend_radius tile : ℤ) :
    2 * blend_radius ≤ handle_tile_dim blend_radius tile ∧
    (tile < 2 * blend_radius →
      handle_tile_dim blend_radius tile = fix_tile_multiple (2 * blend_radius) ∧
      handle_tile_dim blend_radius tile % 16 = 0) ∧
    (2 * blend_radius ≤ tile → handle_tile_dim blend_radius tile = tile) := by
  obtain ⟨hle, hmod⟩ := fix_tile_multiple_bounds (2 * blend_radius)
  unfold handle_tile_dim
  split_ifs with h
  · exact ⟨hle, fun _ => ⟨rfl, hmod⟩, fun h2 => absurd h2 (not_le.mpr h)⟩
  · exact ⟨not_lt.mp h, fun h2 => absurd h2 h, fun _ => rfl⟩

/-- Counterexample to C9 as stated: with blend radius 16, a user tile
dimension 10 is replaced by exactly 32 = 2*16, which does not *exceed*
`2 * blend_radius`; and a user tile dimension 100 (≥ 32) is left at 100,
which is not a multiple of 16. -/
theorem tile_size_claim_fails :
    handle_tile_dim 16 10 = 32 ∧ ¬(2 * 16 < handle_tile_dim 16 10) ∧
    handle_tile_dim 16 100 = 100 ∧ ¬(handle_tile_dim 16 100 % 16 = 0) := by
  decide

/-- Witness for C9's amended theorem at concrete inputs. -/
theorem tile_size_adjustment_witness :
    (2 * 16 ≤ handle_tile_dim 16 10 ∧
     handle_tile_dim 16 10 = fix_tile_multiple (2 * 16) ∧
     handle_tile_dim 16 10 % 16 = 0) ∧
    handle_tile_dim 16 100 = 100 :=
  ⟨⟨(tile_size_adjustment 16 10).1, (tile_size_adjustment 16 10).2.1 (by norm_num)⟩,
   (tile_size_adjustment 16 100).2.2 (by norm_num)⟩

/-- C10: when the output-nodata-value option is not supplied, the nodata
sentinel handed to the mosaic view and the nodata value handed to the writer
are both the `Options` default quiet NaN (`opt.output_nodata_value`, lines
746 and 749), never the input-derived fallback computed into the unused local
variable at lines 736-738. -/
theorem default_output_nodata (user_input : Option ℚ)
    (last_input_nodata : NodataVal) :
    (main_nodata (handle_nodata_arguments user_input none)
      last_input_nodata).renderer_nodata = NodataVal.quietNaN ∧
    (main_nodata (handle_nodata_arguments user_input none)
      last_input_nodata).writer_nodata = NodataVal.quietNaN ∧
    (∀ q : ℚ, last_input_nodata = NodataVal.val q →
      (main_nodata (handle_nodata_arguments user_input none)
        last_input_nodata).renderer_nodata ≠ last_input_nodata ∧
      (main_nodata (handle_nodata_arguments user_input none)
        last_input_nodata).writer_nodata ≠ last_input_nodata) := by
  refine ⟨rfl, rfl, ?_⟩
  intro q hq
  rw [hq]
  exact ⟨fun h => NodataVal.noConfusion h, fun h => NodataVal.noConfusion h⟩

/-- Witness for C10 at a concrete input: input nodata supplied as 7, last
input image nodata 5 — the renderer still gets the default quiet NaN. -/
theorem default_output_nodata_witness :
    (main_nodata (handle_nodata_arguments (some 7) none)
      (NodataVal.val 5)).renderer_nodata = NodataVal.quietNaN ∧
    (main_nodata (handle_nodata_arguments (some 7) none)
      (NodataVal.val 5)).renderer_nodata ≠ NodataVal.val 5 :=
  ⟨(default_output_nodata (some 7) (NodataVal.val 5)).1,
   ((default_output_nodata (some 7) (NodataVal.val 5)).2.2 5 rfl).1⟩
